import Mathlib

/-!
Shallow embedding of the Vilnius summer-camp scraper
(src/scraper.py, src/config.py).

HTML trees are abstracted: an lxml element is a `Node` carrying its tag,
its `text_content()` and its `getnext()` sibling; the result of an XPath
query on a card is carried directly as the list of matched values
(element nodes for the `h6` label selectors, plain strings for the
`text()` / `@href` selectors).  Fetch results are `Option (List Card)`:
`none` models a fetch or structural-parse failure (the two `except`
arms of the pagination loop), `some cards` a parsed page.
Floats in the pandas/NumPy post-processing are modelled as `Option ℚ`,
`none` standing for NaN.
-/

/-- An lxml element as `extract_field` sees it: its tag, its
`text_content()`, and its `getnext()` next sibling. -/
inductive Node : Type where
  | mk : String → String → Option Node → Node

def Node.tag : Node → String
  | .mk t _ _ => t

def Node.text_content : Node → String
  | .mk _ s _ => s

def Node.getnext : Node → Option Node
  | .mk _ _ n => n

/-- Python `str.strip()`: drop leading and trailing whitespace. -/
def pyStrip (s : String) : String :=
  ⟨((s.data.dropWhile Char.isWhitespace).reverse.dropWhile Char.isWhitespace).reverse⟩

/-- Embedding of `extract_field(card, selector, field_name)`
(src/scraper.py lines 40–58).  The card and selector enter the Python
function only through `card.xpath(selector)`, whose result list is the
argument here.  `value = "–"`; if the match list is non-empty, take the
first match's `getnext()`; if that sibling exists and its tag is `'p'`,
`value` becomes its `text_content().strip()`. -/
def extract_field (ms : List Node) : String :=
  match ms with
  | [] => "–"
  | h6 :: _ =>
    match h6.getnext with
    | none => "–"
    | some p => if p.tag = "p" then pyStrip p.text_content else "–"

namespace config

/-- src/config.py line 6. -/
def MAX_CAMPS : Nat := 20

/-- src/config.py line 14. -/
def BASE_URL : String := "https://vilnius.lt/savivaldybe/vasaros-stovyklos"

end config

/-- One listing card, carrying the results of the five XPath queries
`scrape_camps` runs against it: `.//h3/text()` (strings),
the three `h6` label selectors (element nodes), `.//a/@href` (strings). -/
structure Card : Type where
  title_matches : List String
  organizer_matches : List Node
  age_matches : List Node
  price_matches : List Node
  link_matches : List String

/-- One flat record of `scrape_camps`: the `camp_data` dict, with the
five CSV_COLUMNS keys (title, organizer, age group, price, link). -/
structure CampData : Type where
  title : String
  organizer : String
  age_group : String
  price : String
  link : String
deriving DecidableEq

/-- Building `camp_data` for one card (src/scraper.py lines 103–115):
title from the first `text()` match stripped (else "–"), organizer /
age group / price through `extract_field`, and the link by literal
string concatenation `f"{config.BASE_URL}{link_el[0]}"` when an
`@href` match exists, else "–". -/
def processCard (card : Card) : CampData :=
  { title :=
      match card.title_matches with
      | t :: _ => pyStrip t
      | [] => "–"
    organizer := extract_field card.organizer_matches
    age_group := extract_field card.age_matches
    price := extract_field card.price_matches
    link :=
      match card.link_matches with
      | l :: _ => config.BASE_URL ++ l
      | [] => "–" }

/-- The `for card in cards` body of `scrape_camps` (lines 98–118):
before each card, if `len(all_camps) >= max_camps` the inner loop
breaks; otherwise the card's record is appended. -/
def processCards (max_camps : Nat) (cards : List Card) (acc : List CampData) : List CampData :=
  match cards with
  | [] => acc
  | c :: rest =>
    if acc.length ≥ max_camps then acc
    else processCards max_camps rest (acc ++ [processCard c])

theorem processCards_length_le (max_camps : Nat) (cards : List Card) (acc : List CampData)
    (h : acc.length ≤ max_camps) : (processCards max_camps cards acc).length ≤ max_camps := by
  induction cards generalizing acc with
  | nil => simpa [processCards] using h
  | cons c rest ih =>
    by_cases hge : acc.length ≥ max_camps
    · simpa [processCards, hge] using h
    · have hlt : acc.length < max_camps := Nat.lt_of_not_le hge
      simp only [processCards, hge, if_false]
      exact ih (acc ++ [processCard c]) (by simpa using hlt)

theorem length_le_processCards (max_camps : Nat) (cards : List Card) (acc : List CampData) :
    acc.length ≤ (processCards max_camps cards acc).length := by
  induction cards generalizing acc with
  | nil => simp [processCards]
  | cons c rest ih =>
    by_cases hge : acc.length ≥ max_camps
    · simp [processCards, hge]
    · simp only [processCards, hge, if_false]
      calc acc.length ≤ (acc ++ [processCard c]).length := by simp
        _ ≤ _ := ih (acc ++ [processCard c])

theorem length_lt_processCards_cons (max_camps : Nat) (c : Card) (rest : List Card)
    (acc : List CampData) (h : acc.length < max_camps) :
    acc.length < (processCards max_camps (c :: rest) acc).length := by
  have hge : ¬ acc.length ≥ max_camps := Nat.not_le_of_lt h
  simp only [processCards, hge, if_false]
  calc acc.length < (acc ++ [processCard c]).length := by simp
    _ ≤ _ := length_le_processCards max_camps rest (acc ++ [processCard c])

/-- The `while len(all_camps) < max_camps` pagination loop of
`scrape_camps` (lines 77–128).  `pages` maps a page number to the
outcome of the fetch-and-parse step: `none` models the two `except`
arms (RequestException on fetch, or a structural error while
processing the page) — both `break`; `some cards` is the parsed card
list.  An empty card list `break`s (lines 93–95); otherwise the cards
are folded in and the loop moves to the next page. -/
def scrape_loop (pages : Nat → Option (List Card)) (max_camps : Nat)
    (page : Nat) (acc : List CampData) : List CampData :=
  if h : acc.length < max_camps then
    match pages page with
    | none => acc
    | some cards =>
      if hc : cards.isEmpty then acc
      else scrape_loop pages max_camps (page + 1) (processCards max_camps cards acc)
  else acc
termination_by max_camps - acc.length
decreasing_by
  have hne : cards ≠ [] := by
    intro hnil
    rw [hnil] at hc
    simp at hc
  obtain ⟨c, rest, hrest⟩ : ∃ c rest, cards = c :: rest := by
    cases cards with
    | nil => exact absurd rfl hne
    | cons c rest => exact ⟨c, rest, rfl⟩
  have hlt : acc.length < (processCards max_camps cards acc).length := by
    rw [hrest]
    exact length_lt_processCards_cons max_camps c rest acc h
  omega

/-- The substitution `max_camps = max_camps or config.MAX_CAMPS`
(line 71): Python `or` replaces a falsy left operand, so both `None`
and `0` fall back to the configured default. -/
def pyOrMaxCamps (max_camps : Option Nat) : Nat :=
  match max_camps with
  | none => config.MAX_CAMPS
  | some n => if n = 0 then config.MAX_CAMPS else n

/-- `scrape_camps(max_camps=None)` (lines 60–131): apply the truthiness
fallback, then run the pagination loop from page 1 with an empty
accumulator. -/
def scrape_camps (pages : Nat → Option (List Card)) (max_camps : Option Nat) : List CampData :=
  scrape_loop pages (pyOrMaxCamps max_camps) 1 []

/-! ### Post-processing: `save_to_csv`, `analyze_prices` -/

def firstDigitRunAux : List Char → Option (List Char)
  | [] => none
  | c :: cs =>
    if c.isDigit then some (c :: cs.takeWhile Char.isDigit)
    else firstDigitRunAux cs

def digitsToNat (ds : List Char) : Nat :=
  ds.foldl (fun n c => n * 10 + (c.toNat - 48)) 0

/-- The pandas extraction `df['Kaina'].str.extract(r'(\d+)').astype(float)`
(src/scraper.py line 280): the first contiguous digit run of the string,
as a number; `none` models the NaN a record without digits gets. -/
def firstDigitRun (s : String) : Option Nat :=
  (firstDigitRunAux s.data).map digitsToNat

/-- The `price_numeric` column: one entry per record, NaN (`none`)
where the price text holds no digit run. -/
def price_numeric_col (camps : List CampData) : List (Option ℚ) :=
  camps.map fun c => (firstDigitRun c.price).map (fun n => (n : ℚ))

/-- ASCII lower-casing of a string, character by character (the case
folding pandas applies to this all-ASCII pattern). -/
def lowerAscii (s : String) : String :=
  ⟨s.data.map Char.toLower⟩

/-- `df['Kaina'].str.contains('nemokama', case=False, na=False)`
(line 288): case-insensitive substring containment of the pattern in
the price text. -/
def strContainsCI (hay pat : String) : Bool :=
  decide ((lowerAscii pat).data <:+: (lowerAscii hay).data)

/-- `len(df[df['Kaina'].str.contains('nemokama', case=False, na=False)])`
(line 288). -/
def free_camps_count (camps : List CampData) : Nat :=
  (camps.filter fun c => strContainsCI c.price "nemokama").length

/-- pandas `Series.mean()` over a float column: NaN entries are
skipped; the mean of an all-NaN column is itself NaN (`none`). -/
def pdMean (col : List (Option ℚ)) : Option ℚ :=
  let v := col.filterMap id
  if v.isEmpty then none else some (v.sum / (v.length : ℚ))

/-- pandas `Series.min()`: NaN skipped, `none` when nothing is left. -/
def pdMin (col : List (Option ℚ)) : Option ℚ :=
  (col.filterMap id).min?

/-- pandas `Series.max()`: NaN skipped, `none` when nothing is left. -/
def pdMax (col : List (Option ℚ)) : Option ℚ :=
  (col.filterMap id).max?

/-- The `summary` dict built in `save_to_csv` (lines 283–290). -/
structure Summary : Type where
  total_camps : Nat
  avg_price : Option ℚ
  min_price : Option ℚ
  max_price : Option ℚ
  free_camps : Nat
  organizers_count : Nat
deriving DecidableEq

/-- `save_to_csv` up to the summary dict (lines 256–290): the empty
record list returns early after a warning (`none` — nothing written);
otherwise the CSV is written and the summary computed, with
`organizers_count = df['Organizatorius'].nunique()`. -/
def save_to_csv_summary (camps : List CampData) : Option Summary :=
  if camps.isEmpty then none
  else
    let col := price_numeric_col camps
    some
      { total_camps := camps.length
        avg_price := pdMean col
        min_price := pdMin col
        max_price := pdMax col
        free_camps := free_camps_count camps
        organizers_count := ((camps.map fun c => c.organizer).eraseDups).length }

/-- The value `q·100` rounded half-to-even to an integer (the
rounding `%.2f` applies), computed on the reduced fraction: with
`n = 100·num` and `d = den`, the floor is `n fdiv d` and the doubled
remainder `2·(n − f·d)` is compared against `d` to settle the half. -/
def roundCentsHalfEven (q : ℚ) : ℤ :=
  let n := q.num * 100
  let d := (q.den : ℤ)
  let f := Int.fdiv n d
  let r2 := 2 * (n - f * d)
  if r2 < d then f
  else if d < r2 then f + 1
  else if f % 2 = 0 then f else f + 1

/-- Python `f"{v:.2f}"` on a (non-NaN) float value: two digits after
the decimal point. -/
def formatF2 (q : ℚ) : String :=
  let c := roundCentsHalfEven q
  let sgn := if c < 0 then "-" else ""
  let a := c.natAbs
  sgn ++ toString (a / 100) ++ "." ++ toString (a / 10 % 10) ++ toString (a % 10)

/-- Python `str()` of a float column value as the summary's
`Price Range` line interpolates it: NaN prints `nan`; an integral
float `n` prints `n.0`.  (Digit-run prices are integers, so the
min/max interpolated there are always integral or NaN; the final
branch for a non-integral rational never arises in this pipeline.) -/
def pyFloatRepr (x : Option ℚ) : String :=
  match x with
  | none => "nan"
  | some q => if q.den = 1 then toString q.num ++ ".0" else toString q

/-- Line 297: `f"Average Price: {summary['avg_price']:.2f}€\n"`
(`:.2f` of NaN prints `nan`). -/
def avgPriceLine (x : Option ℚ) : String :=
  match x with
  | none => "Average Price: nan€"
  | some q => "Average Price: " ++ formatF2 q ++ "€"

/-- Line 298: `f"Price Range: {summary['min_price']}€ - {summary['max_price']}€\n"`
— plain interpolation, no format spec. -/
def priceRangeLine (mn mx : Option ℚ) : String :=
  "Price Range: " ++ pyFloatRepr mn ++ "€ - " ++ pyFloatRepr mx ++ "€"

/-- The lines written to `summary.txt` (lines 293–300), as a list of
lines (the blank entry is the extra `\n` after the `===` rule);
`none` when the empty-records guard skipped all writing. -/
def summary_lines (camps : List CampData) : Option (List String) :=
  (save_to_csv_summary camps).map fun s =>
    ["Summer Camps Summary",
     "===================",
     "",
     "Total Camps: " ++ toString s.total_camps,
     avgPriceLine s.avg_price,
     priceRangeLine s.min_price s.max_price,
     "Free Camps: " ++ toString s.free_camps,
     "Unique Organizers: " ++ toString s.organizers_count]

/-- `np.percentile` with its default linear interpolation, on an
already sorted sample: index position `(n-1)·q/100`, linearly
interpolated between the two neighbouring order statistics. -/
def npPercentile (sorted : List ℚ) (q : ℚ) : ℚ :=
  let pos : ℚ := ((sorted.length : ℚ) - 1) * q / 100
  let i : ℕ := (⌊pos⌋).toNat
  let lower := sorted.getD i 0
  let upper := sorted.getD (i + 1) lower
  lower + (pos - (⌊pos⌋ : ℚ)) * (upper - lower)

/-- The dict `analyze_prices` returns (lines 147–170). -/
structure PriceStats : Type where
  mean : ℚ
  median : ℚ
  std : ℝ
  percentiles : List ℚ
  outliers : List ℚ

/-- `analyze_prices(df)` (lines 133–170): drop the NaN entries of the
`price_numeric` column; on an empty sample return all-zero statistics
and no outliers; otherwise mean, median (= the 50th percentile under
NumPy's linear interpolation), population standard deviation,
the [25, 50, 75] percentiles, and the 1.5·IQR outliers. -/
noncomputable def analyze_prices (price_numeric : List (Option ℚ)) : PriceStats :=
  let price_array := price_numeric.filterMap id
  if price_array.isEmpty then
    { mean := 0, median := 0, std := 0, percentiles := [0, 0, 0], outliers := [] }
  else
    let n : ℚ := (price_array.length : ℚ)
    let mean := price_array.sum / n
    let sorted := List.insertionSort (· ≤ ·) price_array
    let q1 := npPercentile sorted 25
    let q2 := npPercentile sorted 50
    let q3 := npPercentile sorted 75
    let iqr := q3 - q1
    let variance : ℚ := ((price_array.map fun x => (x - mean) ^ 2).sum) / n
    { mean := mean
      median := q2
      std := Real.sqrt (variance : ℝ)
      percentiles := [q1, q2, q3]
      outliers := price_array.filter fun x =>
        decide (x < q1 - 3 / 2 * iqr) || decide (q3 + 3 / 2 * iqr < x) }

/-! ### Helper lemmas about the pagination loop -/

theorem scrape_loop_eq_acc_of_not_lt (pages : Nat → Option (List Card)) (m page : Nat)
    (acc : List CampData) (h : ¬ acc.length < m) :
    scrape_loop pages m page acc = acc := by
  rw [scrape_loop, dif_neg h]

theorem scrape_loop_eq_acc_of_none (pages : Nat → Option (List Card)) (m page : Nat)
    (acc : List CampData) (h : pages page = none) :
    scrape_loop pages m page acc = acc := by
  rw [scrape_loop]
  split
  · rw [h]
  · rfl

theorem scrape_loop_eq_acc_of_nil (pages : Nat → Option (List Card)) (m page : Nat)
    (acc : List CampData) (h : pages page = some []) :
    scrape_loop pages m page acc = acc := by
  rw [scrape_loop]
  split
  · rw [h]
    simp
  · rfl

theorem scrape_loop_step (pages : Nat → Option (List Card)) (m page : Nat)
    (acc : List CampData) (cards : List Card) (hlt : acc.length < m)
    (hsome : pages page = some cards) (hne : cards.isEmpty = false) :
    scrape_loop pages m page acc
      = scrape_loop pages m (page + 1) (processCards m cards acc) := by
  rw [scrape_loop, dif_pos hlt, hsome]
  simp [hne]

theorem scrape_loop_length_le (pages : Nat → Option (List Card)) (m page : Nat)
    (acc : List CampData) (h : acc.length ≤ m) :
    (scrape_loop pages m page acc).length ≤ m := by
  revert h
  induction page, acc using scrape_loop.induct pages m with
  | case1 page acc hlt hnone =>
    intro h
    rw [scrape_loop_eq_acc_of_none pages m page acc hnone]
    exact h
  | case2 page acc hlt cards hsome hnil =>
    intro h
    have : cards = [] := List.isEmpty_iff.mp hnil
    rw [scrape_loop_eq_acc_of_nil pages m page acc (this ▸ hsome)]
    exact h
  | case3 page acc hlt cards hsome hne ih =>
    intro h
    rw [scrape_loop_step pages m page acc cards hlt hsome (Bool.not_eq_true _ ▸ hne)]
    exact ih (processCards_length_le m cards acc h)
  | case4 page acc hge =>
    intro h
    rw [scrape_loop_eq_acc_of_not_lt pages m page acc hge]
    exact h

theorem scrape_loop_length_eq (pages : Nat → Option (List Card)) (m page : Nat)
    (acc : List CampData) (hall : ∀ p, ∃ cs, pages p = some cs ∧ cs ≠ [])
    (h : acc.length ≤ m) :
    (scrape_loop pages m page acc).length = m := by
  revert h
  induction page, acc using scrape_loop.induct pages m with
  | case1 page acc hlt hnone =>
    intro h
    obtain ⟨cs, hcs, _⟩ := hall page
    rw [hcs] at hnone
    cases hnone
  | case2 page acc hlt cards hsome hnil =>
    intro h
    obtain ⟨cs, hcs, hcsne⟩ := hall page
    rw [hcs] at hsome
    cases hsome
    exact absurd (List.isEmpty_iff.mp hnil) hcsne
  | case3 page acc hlt cards hsome hne ih =>
    intro h
    rw [scrape_loop_step pages m page acc cards hlt hsome (Bool.not_eq_true _ ▸ hne)]
    exact ih (processCards_length_le m cards acc h)
  | case4 page acc hge =>
    intro h
    rw [scrape_loop_eq_acc_of_not_lt pages m page acc hge]
    omega
/-! ### Concrete fixtures -/

/-- A fully populated listing card used as a concrete test input. -/
def cardW : Card :=
  { title_matches := [" Stovykla A "]
    organizer_matches := [Node.mk "h6" "Organizatorius" (some (Node.mk "p" "Org1" none))]
    age_matches := []
    price_matches := [Node.mk "h6" "Kaina" (some (Node.mk "p" "50 €" none))]
    link_matches := ["/veikla/1"] }

/-- A record whose price text carries no digit run. -/
def campFree : CampData :=
  { title := "Stovykla", organizer := "Org", age_group := "7-12",
    price := "Nemokama", link := "–" }

/-- A record with the integral price 50. -/
def campPaid : CampData :=
  { title := "Stovykla", organizer := "Org", age_group := "7-12",
    price := "50 €", link := "–" }

theorem price_numeric_col_all_nan (camps : List CampData)
    (h : ∀ c ∈ camps, firstDigitRun c.price = none) :
    (price_numeric_col camps).filterMap id = [] := by
  rw [List.filterMap_eq_nil_iff]
  intro a ha
  rw [price_numeric_col, List.mem_map] at ha
  obtain ⟨c, hc, rfl⟩ := ha
  rw [h c hc]
  rfl

theorem natRepr_length_one (d : Nat) (h : d < 10) : (toString d).length = 1 := by
  interval_cases d <;> rfl

/-! ### Claim theorems -/

/-- C1: on every match list of a label expression, `extract_field`
returns "–" when there is no match; with at least one match it takes
the first match's next sibling and returns that sibling's trimmed text
content when the sibling exists and its tag is `p`, and "–" otherwise;
being a total function, no exception escapes. -/
theorem extract_field_spec (ms : List Node) :
    (ms = [] → extract_field ms = "–")
    ∧ (∀ h6 rest, ms = h6 :: rest →
        (h6.getnext = none → extract_field ms = "–")
        ∧ (∀ p, h6.getnext = some p →
            (p.tag = "p" → extract_field ms = (pyStrip p.text_content))
            ∧ (p.tag ≠ "p" → extract_field ms = "–"))) := by
  refine ⟨?_, ?_⟩
  · rintro rfl
    rfl
  · rintro h6 rest rfl
    refine ⟨?_, ?_⟩
    · intro hn
      simp [extract_field, hn]
    · intro p hp
      refine ⟨?_, ?_⟩
      · intro ht
        simp [extract_field, hp, ht]
      · intro ht
        simp [extract_field, hp, ht]

theorem extract_field_spec_witness :
    extract_field [Node.mk "h6" "Kaina" (some (Node.mk "p" " 100 € " none))] = "100 €"
    ∧ extract_field [] = "–" := by
  constructor
  · have h := ((extract_field_spec
        [Node.mk "h6" "Kaina" (some (Node.mk "p" " 100 € " none))]).2
        (Node.mk "h6" "Kaina" (some (Node.mk "p" " 100 € " none))) [] rfl).2
        (Node.mk "p" " 100 € " none) rfl
    rw [h.1 rfl]
    decide
  · exact (extract_field_spec []).1 rfl

/-- C2: the accumulator never exceeds the configured maximum at any
reachable loop state, and with an endless supply of non-empty pages
the loop returns exactly `m` records. -/
theorem scrape_camps_budget_spec (pages : Nat → Option (List Card)) (m : Nat) :
    (∀ page acc, acc.length ≤ m → (scrape_loop pages m page acc).length ≤ m)
    ∧ ((∀ p, ∃ cs, pages p = some cs ∧ cs ≠ []) →
        (scrape_loop pages m 1 []).length = m) := by
  constructor
  · intro page acc h
    exact scrape_loop_length_le pages m page acc h
  · intro hall
    exact scrape_loop_length_eq pages m 1 [] hall (by simp)

theorem scrape_camps_budget_spec_witness :
    (scrape_loop (fun _ => some [cardW]) 2 1 []).length ≤ 2
    ∧ (scrape_loop (fun _ => some [cardW]) 2 1 []).length = 2 :=
  ⟨(scrape_camps_budget_spec (fun _ => some [cardW]) 2).1 1 [] (by simp),
   (scrape_camps_budget_spec (fun _ => some [cardW]) 2).2
     (fun _ => ⟨[cardW], rfl, List.cons_ne_nil _ _⟩)⟩

/-- C3: a fetched page with zero listing cards adds no record and the
loop returns the accumulator collected so far. -/
theorem scrape_loop_empty_page_spec (pages : Nat → Option (List Card)) (m page : Nat)
    (acc : List CampData) (h : pages page = some []) :
    scrape_loop pages m page acc = acc :=
  scrape_loop_eq_acc_of_nil pages m page acc h

theorem scrape_loop_empty_page_spec_witness :
    scrape_loop (fun _ => some []) 20 3 [campPaid] = [campPaid] :=
  scrape_loop_empty_page_spec (fun _ => some []) 20 3 [campPaid] rfl

/-- C4: a failed fetch / structural page error (`none`) ends the loop
at once with the records collected so far, and the returned value is
the same as that of a clean empty-page stop at the same state. -/
theorem scrape_loop_error_stop_spec (pagesE pagesOk : Nat → Option (List Card))
    (m page : Nat) (acc : List CampData)
    (hE : pagesE page = none) (hOk : pagesOk page = some []) :
    scrape_loop pagesE m page acc = acc
    ∧ scrape_loop pagesE m page acc = scrape_loop pagesOk m page acc := by
  have h1 := scrape_loop_eq_acc_of_none pagesE m page acc hE
  have h2 := scrape_loop_eq_acc_of_nil pagesOk m page acc hOk
  exact ⟨h1, by rw [h1, h2]⟩

theorem scrape_loop_error_stop_spec_witness :
    scrape_loop (fun _ => none) 20 2 [campPaid] = [campPaid]
    ∧ scrape_loop (fun _ => none) 20 2 [campPaid]
      = scrape_loop (fun _ => some []) 20 2 [campPaid] :=
  scrape_loop_error_stop_spec (fun _ => none) (fun _ => some []) 20 2 [campPaid] rfl rfl

/-- C5 counterexample: for a record whose price text has no digit run,
the summary's mean, min and max price are NaN (`none`) — not the
zero-like defined values the claim states. -/
theorem save_to_csv_summary_nan_counterexample :
    (save_to_csv_summary [campFree]).map Summary.avg_price = some none
    ∧ (save_to_csv_summary [campFree]).map Summary.min_price = some none
    ∧ (save_to_csv_summary [campFree]).map Summary.max_price = some none
    ∧ (save_to_csv_summary [campFree]).map Summary.avg_price ≠ some (some 0) := by
  decide

/-- C5 amended: with no numeric price in a non-empty record set, the
summary is still produced (and written), but its mean, min and max
price are NaN (`none`), pandas' result on an all-NaN column. -/
theorem save_to_csv_summary_all_nan_spec (camps : List CampData) (hne : camps ≠ [])
    (h : ∀ c ∈ camps, firstDigitRun c.price = none) :
    (save_to_csv_summary camps).isSome = true
    ∧ (save_to_csv_summary camps).map Summary.avg_price = some none
    ∧ (save_to_csv_summary camps).map Summary.min_price = some none
    ∧ (save_to_csv_summary camps).map Summary.max_price = some none := by
  have hnil := price_numeric_col_all_nan camps h
  have hempty : camps.isEmpty = false := by
    cases camps with
    | nil => exact absurd rfl hne
    | cons c cs => rfl
  refine ⟨?_, ?_, ?_, ?_⟩ <;>
    simp [save_to_csv_summary, hempty, pdMean, pdMin, pdMax, hnil]

theorem save_to_csv_summary_all_nan_spec_witness :
    (save_to_csv_summary [campFree]).map Summary.avg_price = some none :=
  (save_to_csv_summary_all_nan_spec [campFree] (by decide)
    (by intro c hc; rw [List.mem_singleton] at hc; subst hc; rfl)).2.1

/-- C6: over a record set whose price texts all fail numeric
extraction, `analyze_prices` returns zero mean, median and standard
deviation, zero percentiles, and no outliers; as a total function it
cannot raise. -/
theorem analyze_prices_empty_spec (camps : List CampData)
    (h : ∀ c ∈ camps, firstDigitRun c.price = none) :
    analyze_prices (price_numeric_col camps)
      = { mean := 0, median := 0, std := 0, percentiles := [0, 0, 0], outliers := [] } := by
  have hnil := price_numeric_col_all_nan camps h
  simp [analyze_prices, hnil]

theorem analyze_prices_empty_spec_witness :
    analyze_prices (price_numeric_col [campFree])
      = { mean := 0, median := 0, std := 0, percentiles := [0, 0, 0], outliers := [] } :=
  analyze_prices_empty_spec [campFree]
    (by intro c hc; rw [List.mem_singleton] at hc; subst hc; rfl)

/-- C7: the free-listing count is the number of records whose price
text contains the marker word case-insensitively as a substring, and
the containment test is exactly case-insensitive substring occurrence;
"Nemokama" and "NEMOKAMA renginio metu" count, "100 €" does not. -/
theorem free_camps_count_spec :
    (∀ camps : List CampData,
        free_camps_count camps
          = camps.countP (fun c => strContainsCI c.price "nemokama"))
    ∧ (∀ hay pat : String, strContainsCI hay pat = true ↔
        ∃ pre post : List Char, (lowerAscii hay).data = pre ++ (lowerAscii pat).data ++ post)
    ∧ strContainsCI "Nemokama" "nemokama" = true
    ∧ strContainsCI "NEMOKAMA renginio metu" "nemokama" = true
    ∧ strContainsCI "100 €" "nemokama" = false := by
  refine ⟨?_, ?_, by decide, by decide, by decide⟩
  · intro camps
    rw [List.countP_eq_length_filter]
    rfl
  · intro hay pat
    rw [strContainsCI, decide_eq_true_eq]
    constructor
    · rintro ⟨s, t, hst⟩
      exact ⟨s, t, hst.symm⟩
    · rintro ⟨s, t, hst⟩
      exact ⟨s, t, hst.symm⟩

theorem free_camps_count_spec_witness :
    free_camps_count [campFree, campPaid]
      = List.countP (fun c => strContainsCI c.price "nemokama") [campFree, campPaid]
    ∧ free_camps_count [campFree, campPaid] = 1 :=
  ⟨free_camps_count_spec.1 [campFree, campPaid], by decide⟩

/-- C8: the record's link is the configured base URL literally
concatenated with the first matched link attribute when one exists,
and the placeholder "–" otherwise. -/
theorem camp_link_spec (card : Card) :
    (∀ v rest, card.link_matches = v :: rest →
        (processCard card).link = config.BASE_URL ++ v)
    ∧ (card.link_matches = [] → (processCard card).link = "–") := by
  constructor
  · intro v rest hv
    simp [processCard, hv]
  · intro hv
    simp [processCard, hv]

theorem camp_link_spec_witness :
    (processCard cardW).link = "https://vilnius.lt/savivaldybe/vasaros-stovyklos/veikla/1" := by
  rw [(camp_link_spec cardW).1 "/veikla/1" [] rfl]
  decide

/-- C9 counterexample: the summary of a single 50-euro record renders
its price range as "50.0€ - 50.0€" — the plain float interpolation —
and not with the two-decimal formatting the claim states. -/
theorem summary_price_format_counterexample :
    (save_to_csv_summary [campPaid]).map (fun s => priceRangeLine s.min_price s.max_price)
      = some "Price Range: 50.0€ - 50.0€"
    ∧ "Price Range: 50.0€ - 50.0€"
      ≠ "Price Range: " ++ formatF2 50 ++ "€ - " ++ formatF2 50 ++ "€" := by
  decide

/-- C9 amended: only the average-price figure is formatted to two
decimal places (with the euro suffix); the minimum and maximum are
interpolated with Python's default float rendering, which prints an
integral price with a single digit after the point. -/
theorem summary_price_format_spec (q : ℚ) (mn mx : ℤ) :
    avgPriceLine (some q) = "Average Price: " ++ formatF2 q ++ "€"
    ∧ (∃ ip d1 d2 : String,
        formatF2 q = ip ++ "." ++ d1 ++ d2 ∧ d1.length = 1 ∧ d2.length = 1)
    ∧ pyFloatRepr (some (mn : ℚ)) = toString mn ++ ".0"
    ∧ priceRangeLine (some (mn : ℚ)) (some (mx : ℚ))
      = "Price Range: " ++ (toString mn ++ ".0") ++ "€ - " ++ (toString mx ++ ".0") ++ "€" := by
  have hrepr : ∀ k : ℤ, pyFloatRepr (some (k : ℚ)) = toString k ++ ".0" := by
    intro k
    simp [pyFloatRepr, Rat.den_intCast, Rat.num_intCast]
  refine ⟨rfl, ?_, hrepr mn, ?_⟩
  · simp only [formatF2, roundCentsHalfEven]
    refine ⟨_, _, _, rfl, natRepr_length_one _ (Nat.mod_lt _ (by norm_num)),
      natRepr_length_one _ (Nat.mod_lt _ (by norm_num))⟩
  · simp [priceRangeLine, hrepr]

theorem summary_price_format_spec_witness :
    avgPriceLine (some (50 : ℚ)) = "Average Price: " ++ formatF2 (50 : ℚ) ++ "€"
    ∧ formatF2 (50 : ℚ) = "50.00"
    ∧ pyFloatRepr (some ((50 : ℤ) : ℚ)) = toString (50 : ℤ) ++ ".0" :=
  ⟨(summary_price_format_spec 50 50 50).1, by decide,
   (summary_price_format_spec 50 50 50).2.2.1⟩

/-- C10: `scrape_camps` called with `max_camps = 0` does not honour a
zero budget: the truthiness substitution replaces 0 by the configured
default 20, so an endless supply of non-empty pages yields 20
records. -/
theorem scrape_camps_zero_spec (pages : Nat → Option (List Card)) :
    scrape_camps pages (some 0) = scrape_loop pages config.MAX_CAMPS 1 []
    ∧ config.MAX_CAMPS = 20
    ∧ ((∀ p, ∃ cs, pages p = some cs ∧ cs ≠ []) →
        (scrape_camps pages (some 0)).length = 20) := by
  refine ⟨rfl, rfl, ?_⟩
  intro hall
  exact scrape_loop_length_eq pages 20 1 [] hall (by simp)

theorem scrape_camps_zero_spec_witness :
    (scrape_camps (fun _ => some [cardW]) (some 0)).length = 20 :=
  (scrape_camps_zero_spec (fun _ => some [cardW])).2.2
    (fun _ => ⟨[cardW], rfl, List.cons_ne_nil _ _⟩)
